import Mathlib

/-!
Shallow embedding of the `build_it` derive macro (src/src/lib.rs).

The crate is a proc-macro that, for a struct with named fields, generates one
builder method per field (unless the field is skipped).  We embed the parts of
the `syn` data model the macro actually inspects, and translate each Rust
function into a Lean function of the same name.

A Rust panic (from `.expect(...)`) is modelled as `Except.error msg`; a
`syn::Error` turned into a `compile_error!` token fragment is modelled as an
ordinary value (`MethodFragment.compileError` / `DeriveOutput.compileError`)
carrying the span and the message, because the macro returns those fragments
as its output rather than aborting.
-/

namespace BuildIt

/-- Source locations (`proc_macro2::Span`) are opaque identifiers here. -/
abbrev Span := Nat

/-- The literal kinds the macro can meet inside an attribute value
(`syn::Lit`); only string literals are accepted for `rename`. -/
inductive Lit where
  | str (s : String)
  | int (n : Nat)
  | boolean (b : Bool)
deriving DecidableEq, Repr

/-- One nested meta item inside `#[build_it(...)]`: a path, optionally
followed by `= value` (`meta.value()` succeeds exactly when the value is
present). -/
structure MetaItem where
  path : String
  value : Option Lit
deriving DecidableEq, Repr

/-- The argument shape of an attribute: `#[skip]` is `empty`,
`#[doc = "..."]` is `nameValue`, `#[build_it(...)]` is `list`.
`parse_nested_meta` succeeds on `list` arguments only. -/
inductive AttrArgs where
  | empty
  | nameValue (l : Lit)
  | list (items : List MetaItem)
deriving DecidableEq, Repr

/-- An attribute (`syn::Attribute`): its path identifier and its arguments. -/
structure Attribute where
  path : String
  args : AttrArgs
deriving DecidableEq, Repr

mutual
/-- A type expression (`syn::Type`): a path type with its segments, or any
other type shape (which the macro never looks into). -/
inductive Ty where
  | path (segments : List PathSegment)
  | other (descr : String)

/-- A path segment (`syn::PathSegment`): an identifier plus its arguments. -/
inductive PathSegment where
  | mk (ident : String) (arguments : PathArguments)

/-- Path-segment arguments (`syn::PathArguments`). -/
inductive PathArguments where
  | none
  | angleBracketed (args : List GenericArg)
  | parenthesized

/-- A generic argument (`syn::GenericArgument`): only the `Type` arm matters
to `get_inner_type`; lifetimes and const arguments are not types. -/
inductive GenericArg where
  | lifetime (name : String)
  | tyArg (ty : Ty)
  | constArg (descr : String)
end

/-- A named struct field (`syn::Field`): its identifier, declared type,
attached attributes, and the span `field.span()` reports. Visibility is
ignored by the macro and is not modelled. -/
structure Field where
  ident : String
  ty : Ty
  attrs : List Attribute
  span : Span

/-- The field list of a struct (`syn::Fields`). -/
inductive StructFields where
  | named (fields : List Field)
  | unnamed (span : Span)
  | unit

/-- The data of a `DeriveInput` (`syn::Data`); for enums and unions we keep
the span of the `enum` / `union` keyword token, which is where the error is
reported. -/
inductive Data where
  | struct (fields : StructFields)
  | enum (enumTokenSpan : Span)
  | union (unionTokenSpan : Span)

/-- The macro input (`syn::DeriveInput`): name, generic-parameter list (kept
as the raw parameter tokens, printed verbatim by `quote!`), attributes and
data. -/
structure DeriveInput where
  ident : String
  generics : List String
  attrs : List Attribute
  data : Data

/-- Mirror of `struct GlobalAttr { into: bool }`. -/
structure GlobalAttr where
  into : Bool
deriving DecidableEq, Repr

def GlobalAttr.init : GlobalAttr := ⟨false⟩

/-- Mirror of `struct Attr { skip: bool, into: bool, rename: Option<String> }`. -/
structure Attr where
  skip : Bool
  into : Bool
  rename : Option String
deriving DecidableEq, Repr

def Attr.init : Attr := ⟨false, false, Option.none⟩

/-- Translation of `get_inner_type`: the type must be a path type, its FIRST segment must be
named `Option`, with angle-bracketed arguments whose first entry is a type;
that type is returned. -/
def get_inner_type (ty : Ty) : Option Ty :=
  match ty with
  | .path segments =>
    match segments with
    | [] => Option.none
    | .mk ident arguments :: _ =>
      if ident = "Option" then
        match arguments with
        | .angleBracketed args =>
          match args with
          | .tyArg t :: _ => some t
          | _ => Option.none
        | _ => Option.none
      else Option.none
  | .other _ => Option.none

/-- One step of the `parse_nested_meta` closure in `parse_attr`.
`skip` and `into` set their flags; `rename` demands `= value`
(`meta.value().expect("Expected a value")` panics when absent) and the value
must parse as a string literal (otherwise the `?` propagates and the outer
`.expect("Failed to parse build_it attribute")` panics).  Unknown paths fall
through and leave the result unchanged. -/
def parse_attr_step (r : Attr) (item : MetaItem) : Except String Attr :=
  if item.path = "skip" then .ok { r with skip := true }
  else if item.path = "into" then .ok { r with into := true }
  else if item.path = "rename" then
    match item.value with
    | Option.none => .error "Expected a value"
    | some (Lit.str s) => .ok { r with rename := some s }
    | some _ => .error "Failed to parse build_it attribute"
  else .ok r

/-- Translation of `parse_attr`: find the FIRST `build_it` attribute on the field and fold
the nested-meta closure over its items.  A `build_it` attribute whose
arguments are not a parenthesized list makes `parse_nested_meta` fail, and
the `.expect` panics. -/
def parse_attr (field : Field) : Except String Attr :=
  match field.attrs.find? (fun a => a.path == "build_it") with
  | Option.none => .ok Attr.init
  | some attr =>
    match attr.args with
    | .list items => items.foldlM parse_attr_step Attr.init
    | _ => .error "Failed to parse build_it attribute"

/-- One step of the `parse_nested_meta` closure in `parse_global_attr`: only
`into` is recognized; the closure never fails. -/
def parse_global_step (r : GlobalAttr) (item : MetaItem) : GlobalAttr :=
  if item.path = "into" then { r with into := true } else r

/-- Translation of `parse_global_attr`: find the FIRST `build_it` attribute on the struct and
fold the nested-meta closure over its items. -/
def parse_global_attr (input : DeriveInput) : Except String GlobalAttr :=
  match input.attrs.find? (fun a => a.path == "build_it") with
  | Option.none => .ok GlobalAttr.init
  | some attr =>
    match attr.args with
    | .list items => .ok (items.foldl parse_global_step GlobalAttr.init)
    | _ => .error "Failed to parse global build_it attribute"

/-- The parameter type of a generated method: the inner type itself, or
`impl core::convert::Into<inner>` when the into-conversion is requested. -/
inductive ParamType where
  | exact (t : Ty)
  | implInto (t : Ty)

/-- One generated builder method, as produced by the two `quote!` branches of
`generate_builder_method`: the carried-over doc attributes (in order), the
method name, the parameter name, the parameter type, whether the body applies
`.into()` before wrapping, and the field assigned by `self.#field_name = ...`.
Both branches emit `pub fn`, take `mut self` and return `Self`. -/
structure BuilderMethod where
  docs : List Attribute
  fn_name : String
  param_name : String
  param_ty : ParamType
  applies_into : Bool
  assigned_field : String

/-- The fragment `generate_builder_method` contributes to the impl block:
nothing (skipped field), a `compile_error!` invocation carrying a span and a
message, or one method. -/
inductive MethodFragment where
  | empty
  | compileError (span : Span) (msg : String)
  | method (m : BuilderMethod)

def invalid_type_msg : String :=
  "Builder only works on Option<T> fields. Consider using #[skip] to skip fields that should not be optional."

/-- Translation of `generate_builder_method`, clause by clause:
1. a bare `#[skip]` attribute returns an empty fragment before anything else
   (in particular before `parse_attr` runs);
2. `parse_attr`, then `attr.skip` returns an empty fragment;
3. the method name is the rename value if present, else the field name;
4. `get_inner_type` failing yields a `compile_error!` at `field.span()`;
5. doc attributes are filtered out of the field attributes in order;
6. the `into` branch is taken when the field-level or the global flag is set.
(`syn::Ident::new` validity of the rename string is host-library behavior and
is not modelled; the name is carried as a string.) -/
def generate_builder_method (field : Field) (global_attr : GlobalAttr) :
    Except String MethodFragment :=
  if field.attrs.any (fun a => a.path == "skip") then .ok .empty
  else
    match parse_attr field with
    | .error e => .error e
    | .ok attr =>
      if attr.skip then .ok .empty
      else
        let field_name := field.ident
        let fn_name := attr.rename.getD field_name
        match get_inner_type field.ty with
        | Option.none => .ok (.compileError field.span invalid_type_msg)
        | some field_ty =>
          let docs := field.attrs.filter (fun a => a.path == "doc")
          if attr.into || global_attr.into then
            .ok (.method ⟨docs, fn_name, field_name, .implInto field_ty, true, field_name⟩)
          else
            .ok (.method ⟨docs, fn_name, field_name, .exact field_ty, false, field_name⟩)

/-- The emitted implementation block,
`impl #generics #name #generics { #(#methods)* }`: the generics are printed
once after `impl` and once after the struct name, and the per-field fragments
are spliced in field order. -/
structure BuilderImpl where
  impl_generics : List String
  name : String
  ty_generics : List String
  items : List MethodFragment

/-- Translation of `generate_builder_impl`: map `generate_builder_method` over the fields in
declaration order and wrap the fragments in one impl block. -/
def generate_builder_impl (input : DeriveInput) (global_attr : GlobalAttr)
    (fields : List Field) : Except String BuilderImpl := do
  let methods ← fields.mapM (fun f => generate_builder_method f global_attr)
  return ⟨input.generics, input.ident, input.generics, methods⟩

/-- The macro output: a `compile_error!` fragment, an empty token stream
(unit struct), or an impl block. -/
inductive DeriveOutput where
  | compileError (span : Span) (msg : String)
  | empty
  | implBlock (b : BuilderImpl)

/-- Translation of `derive_builder`: parse the global attribute first (its panic precedes
everything), reject enums and unions with a `compile_error!` at the keyword
token, return empty output for unit structs, reject tuple structs, and
otherwise generate the impl block over the named fields. -/
def derive_builder (input : DeriveInput) : Except String DeriveOutput := do
  let global_attr ← parse_global_attr input
  match input.data with
  | .enum sp => return .compileError sp "Builder derive does not work on enums"
  | .union sp => return .compileError sp "Builder derive does not work on unions"
  | .struct sf =>
    match sf with
    | .named fields => do
      let b ← generate_builder_impl input global_attr fields
      return .implBlock b
    | .unit => return .empty
    | .unnamed sp =>
      return .compileError sp "Builder derive only works on structs with named fields"

/-- Whether the field carries the legacy bare `#[skip]` marker. -/
def has_legacy_skip (f : Field) : Bool :=
  f.attrs.any (fun a => a.path == "skip")

/-- The doc attributes of a field, in their original order. -/
def doc_attrs (f : Field) : List Attribute :=
  f.attrs.filter (fun a => a.path == "doc")

/-- The method `generate_builder_method` produces for a non-skipped field
with directives `a` and inner type `t`, spelled out. -/
def mk_method (f : Field) (a : Attr) (g : GlobalAttr) (t : Ty) : BuilderMethod :=
  if a.into || g.into then
    ⟨doc_attrs f, a.rename.getD f.ident, f.ident, .implInto t, true, f.ident⟩
  else
    ⟨doc_attrs f, a.rename.getD f.ident, f.ident, .exact t, false, f.ident⟩

/-! Concrete sample structures mirroring the crate documentation and the test
suite (src/tests/tests.rs), used to exercise the theorems below. -/

def tyString : Ty := .other "String"

def tyU32 : Ty := .other "u32"

def optionString : Ty := .path [.mk "Option" (.angleBracketed [.tyArg tyString])]

def optionU32 : Ty := .path [.mk "Option" (.angleBracketed [.tyArg tyU32])]

/-- Shorthand for a `#[build_it(...)]` attribute. -/
def buildItAttr (items : List MetaItem) : Attribute := ⟨"build_it", .list items⟩

def field_name : Field := ⟨"name", optionString, [], 1⟩

def field_age : Field := ⟨"age", optionU32, [], 2⟩

def field_into : Field := ⟨"name_into", optionString, [buildItAttr [⟨"into", Option.none⟩]], 3⟩

def field_renamed : Field :=
  ⟨"renamed", optionString, [buildItAttr [⟨"rename", some (Lit.str "new_name")⟩]], 4⟩

def field_skip_legacy : Field := ⟨"address", tyString, [⟨"skip", .empty⟩], 5⟩

def field_skip_attr : Field := ⟨"test", tyString, [buildItAttr [⟨"skip", Option.none⟩]], 6⟩

def field_bad_type : Field := ⟨"address", tyString, [], 7⟩

def field_documented : Field :=
  ⟨"name", optionString,
    [⟨"doc", .nameValue (Lit.str " Name of the person")⟩,
     ⟨"doc", .nameValue (Lit.str " This is a multiline doc comment")⟩], 8⟩

def field_bad_rename : Field :=
  ⟨"renamed", optionString, [buildItAttr [⟨"rename", Option.none⟩]], 9⟩

def field_bad_rename_kind : Field :=
  ⟨"renamed", optionString, [buildItAttr [⟨"rename", some (Lit.int 3)⟩]], 10⟩

def field_dup_attr : Field :=
  ⟨"name", optionString,
    [buildItAttr [⟨"into", Option.none⟩], buildItAttr [⟨"skip", Option.none⟩]], 11⟩

def input_simple : DeriveInput :=
  ⟨"SimpleStruct", [], [], .struct (.named [field_name, field_age])⟩

def input_generic : DeriveInput :=
  ⟨"Generic", ["T"], [], .struct (.named [field_name, field_age])⟩

def input_enum : DeriveInput := ⟨"MyEnum", [], [], .enum 20⟩

def input_union : DeriveInput := ⟨"MyUnion", [], [], .union 21⟩

def input_unit : DeriveInput := ⟨"UnitStruct", [], [], .struct .unit⟩

def input_tuple : DeriveInput := ⟨"TupleStruct", [], [], .struct (.unnamed 22)⟩

def input_mixed : DeriveInput :=
  ⟨"Mixed", [], [], .struct (.named [field_bad_type, field_age])⟩

def input_dup_attr : DeriveInput :=
  ⟨"Dup", [], [buildItAttr [], buildItAttr [⟨"into", Option.none⟩]],
    .struct (.named [field_name])⟩

/-! Computation lemmas for `generate_builder_method`, one per control-flow
exit of the Rust function. -/

theorem generate_eq_empty_of_legacy_skip (f : Field) (g : GlobalAttr)
    (h : has_legacy_skip f = true) :
    generate_builder_method f g = Except.ok MethodFragment.empty := by
  have h2 : (f.attrs.any (fun a => a.path == "skip")) = true := h
  unfold generate_builder_method
  rw [h2]
  rfl

theorem generate_eq_empty_of_attr_skip (f : Field) (g : GlobalAttr) (a : Attr)
    (hs : has_legacy_skip f = false) (ha : parse_attr f = Except.ok a)
    (hk : a.skip = true) :
    generate_builder_method f g = Except.ok MethodFragment.empty := by
  have h2 : (f.attrs.any (fun x => x.path == "skip")) = false := hs
  unfold generate_builder_method
  rw [h2, ha]
  simp [hk]

theorem generate_eq_error_of_bad_type (f : Field) (g : GlobalAttr) (a : Attr)
    (hs : has_legacy_skip f = false) (ha : parse_attr f = Except.ok a)
    (hk : a.skip = false) (ht : get_inner_type f.ty = Option.none) :
    generate_builder_method f g =
      Except.ok (MethodFragment.compileError f.span invalid_type_msg) := by
  have h2 : (f.attrs.any (fun x => x.path == "skip")) = false := hs
  unfold generate_builder_method
  rw [h2, ha]
  simp [hk, ht]

theorem generate_eq_method (f : Field) (g : GlobalAttr) (a : Attr) (t : Ty)
    (hs : has_legacy_skip f = false) (ha : parse_attr f = Except.ok a)
    (hk : a.skip = false) (ht : get_inner_type f.ty = some t) :
    generate_builder_method f g =
      Except.ok (MethodFragment.method (mk_method f a g t)) := by
  have h2 : (f.attrs.any (fun x => x.path == "skip")) = false := hs
  unfold generate_builder_method
  rw [h2, ha]
  unfold mk_method doc_attrs
  rcases h3 : a.into || g.into with _ | _ <;> simp [hk, ht, h3]

theorem generate_eq_error_of_parse_error (f : Field) (g : GlobalAttr) (e : String)
    (hs : has_legacy_skip f = false) (ha : parse_attr f = Except.error e) :
    generate_builder_method f g = Except.error e := by
  have h2 : (f.attrs.any (fun x => x.path == "skip")) = false := hs
  unfold generate_builder_method
  rw [h2, ha]
  simp

/-- Bind of a successful `Except` computation reduces. -/
theorem except_bind_ok {α β : Type} (a : α) (k : α → Except String β) :
    (Except.ok a : Except String α) >>= k = k a := rfl

/-- Mapping `generate_builder_method` over a field list succeeds when it
succeeds on every field, and the resulting fragment list is pointwise the
per-field result, in declaration order. -/
theorem mapM_generate_ok (g : GlobalAttr) (fields : List Field)
    (h : ∀ f ∈ fields, ∃ fr, generate_builder_method f g = Except.ok fr) :
    ∃ frs, fields.mapM (fun f => generate_builder_method f g) = Except.ok frs ∧
      frs.length = fields.length ∧
      ∀ i f, fields.get? i = some f →
        ∃ fr, frs.get? i = some fr ∧ generate_builder_method f g = Except.ok fr := by
  induction fields with
  | nil =>
    refine ⟨[], rfl, rfl, ?_⟩
    intro i f hif
    simp at hif
  | cons f0 rest ih =>
    obtain ⟨fr0, hfr0⟩ := h f0 (List.mem_cons_self f0 rest)
    obtain ⟨frs, hfrs, hlen, hpt⟩ := ih (fun f hf => h f (List.mem_cons_of_mem f0 hf))
    refine ⟨fr0 :: frs, ?_, by simp [hlen], ?_⟩
    · rw [List.mapM_cons, hfr0, except_bind_ok, hfrs, except_bind_ok]
      rfl
    · intro i f hif
      cases i with
      | zero =>
        simp only [List.get?] at hif
        cases hif
        exact ⟨fr0, rfl, hfr0⟩
      | succ n =>
        simp only [List.get?] at hif
        obtain ⟨fr, hfr, hgen⟩ := hpt n f hif
        exact ⟨fr, hfr, hgen⟩

/-- Any element read off a list by index is a member of the list. -/
theorem mem_of_get_index {α : Type} {l : List α} {i : Nat} {a : α}
    (h : l.get? i = some a) : a ∈ l := by
  induction l generalizing i with
  | nil => simp at h
  | cons b l ih =>
    cases i with
    | zero =>
      simp only [List.get?] at h
      cases h
      exact List.mem_cons_self _ _
    | succ n =>
      simp only [List.get?] at h
      exact List.mem_cons_of_mem b (ih h)

/-- Unfolding of `derive_builder` on a named-field struct whose global
attribute parses and whose every field generates a fragment: the output is a
single impl block holding the per-field fragments in declaration order. -/
theorem derive_builder_eq_impl (input : DeriveInput) (fields : List Field) (g : GlobalAttr)
    (hdata : input.data = Data.struct (StructFields.named fields))
    (hg : parse_global_attr input = Except.ok g)
    (h : ∀ f ∈ fields, ∃ fr, generate_builder_method f g = Except.ok fr) :
    ∃ frs, derive_builder input =
        Except.ok (DeriveOutput.implBlock ⟨input.generics, input.ident, input.generics, frs⟩) ∧
      frs.length = fields.length ∧
      ∀ i f, fields.get? i = some f →
        ∃ fr, frs.get? i = some fr ∧ generate_builder_method f g = Except.ok fr := by
  obtain ⟨frs, hm, hlen, hpt⟩ := mapM_generate_ok g fields h
  refine ⟨frs, ?_, hlen, hpt⟩
  unfold derive_builder
  rw [hg, except_bind_ok, hdata]
  dsimp only
  unfold generate_builder_impl
  rw [hm, except_bind_ok]
  rfl

/-- C2: for a non-skipped field of the optional-wrapper shape, the generated
method uses an into-conversion parameter (accepting anything convertible into
the inner type, storing the converted result) exactly when the field-level or
the structure-level into flag is set (the OR of the two); with neither flag
set the parameter type is exactly the inner type and the value is stored
unconverted. -/
theorem into_flag_governs_parameter_conversion (f : Field) (g : GlobalAttr) (a : Attr) (t : Ty)
    (hs : has_legacy_skip f = false) (ha : parse_attr f = Except.ok a)
    (hk : a.skip = false) (ht : get_inner_type f.ty = some t) :
    ∃ m, generate_builder_method f g = Except.ok (MethodFragment.method m) ∧
      ((a.into || g.into) = true →
        m.param_ty = ParamType.implInto t ∧ m.applies_into = true) ∧
      ((a.into || g.into) = false →
        m.param_ty = ParamType.exact t ∧ m.applies_into = false) := by
  refine ⟨mk_method f a g t, generate_eq_method f g a t hs ha hk ht, ?_, ?_⟩ <;>
    intro h3 <;> simp [mk_method, h3]

/-- Witness for C2 at the field `name_into: Option<String>` with
`#[build_it(into)]` and no global flag. -/
theorem into_flag_governs_parameter_conversion_witness :
    ∃ m, generate_builder_method field_into GlobalAttr.init =
        Except.ok (MethodFragment.method m) ∧
      (((⟨false, true, Option.none⟩ : Attr).into || GlobalAttr.init.into) = true →
        m.param_ty = ParamType.implInto tyString ∧ m.applies_into = true) ∧
      (((⟨false, true, Option.none⟩ : Attr).into || GlobalAttr.init.into) = false →
        m.param_ty = ParamType.exact tyString ∧ m.applies_into = false) :=
  into_flag_governs_parameter_conversion field_into GlobalAttr.init
    ⟨false, true, Option.none⟩ tyString rfl rfl rfl rfl

/-- C3: a field marked skip — by the legacy bare marker or by the namespaced
skip flag — yields an empty fragment, and its declared type is never checked
against the optional-wrapper shape: the conclusion holds for every declared
type, so a skip field of any type triggers no generation error. -/
theorem skip_fields_generate_nothing_without_type_check (f : Field) (g : GlobalAttr) :
    (has_legacy_skip f = true →
      generate_builder_method f g = Except.ok MethodFragment.empty) ∧
    (∀ a, parse_attr f = Except.ok a → a.skip = true →
      generate_builder_method f g = Except.ok MethodFragment.empty) := by
  constructor
  · intro h
    exact generate_eq_empty_of_legacy_skip f g h
  · intro a ha hk
    rcases h2 : has_legacy_skip f with _ | _
    · exact generate_eq_empty_of_attr_skip f g a h2 ha hk
    · exact generate_eq_empty_of_legacy_skip f g h2

/-- Witness for C3 at two fields of non-optional type `String`, one with the
legacy `#[skip]`, one with `#[build_it(skip)]`. -/
theorem skip_fields_generate_nothing_without_type_check_witness :
    generate_builder_method field_skip_legacy GlobalAttr.init =
        Except.ok MethodFragment.empty ∧
    generate_builder_method field_skip_attr GlobalAttr.init =
        Except.ok MethodFragment.empty :=
  ⟨(skip_fields_generate_nothing_without_type_check field_skip_legacy GlobalAttr.init).1 rfl,
   (skip_fields_generate_nothing_without_type_check field_skip_attr GlobalAttr.init).2
     ⟨true, false, Option.none⟩ rfl rfl⟩

/-- C5: for a field carrying a rename directive, the generated method is
named by the rename value, while the parameter and the assigned field keep
the field's original name. -/
theorem rename_directive_renames_method_only (f : Field) (g : GlobalAttr) (a : Attr)
    (t : Ty) (s : String)
    (hs : has_legacy_skip f = false) (ha : parse_attr f = Except.ok a)
    (hk : a.skip = false) (hr : a.rename = some s) (ht : get_inner_type f.ty = some t) :
    ∃ m, generate_builder_method f g = Except.ok (MethodFragment.method m) ∧
      m.fn_name = s ∧ m.param_name = f.ident ∧ m.assigned_field = f.ident := by
  refine ⟨mk_method f a g t, generate_eq_method f g a t hs ha hk ht, ?_, ?_, ?_⟩ <;>
    rcases h3 : a.into || g.into with _ | _ <;> simp [mk_method, h3, hr]

/-- Witness for C5 at the field `renamed: Option<String>` with
`#[build_it(rename = "new_name")]`. -/
theorem rename_directive_renames_method_only_witness :
    ∃ m, generate_builder_method field_renamed GlobalAttr.init =
        Except.ok (MethodFragment.method m) ∧
      m.fn_name = "new_name" ∧ m.param_name = field_renamed.ident ∧
      m.assigned_field = field_renamed.ident :=
  rename_directive_renames_method_only field_renamed GlobalAttr.init
    ⟨false, false, some "new_name"⟩ tyString "new_name" rfl rfl rfl rfl rfl

/-- C8: the generated method carries exactly the field's doc attributes, in
their original order, unchanged. -/
theorem doc_comments_carried_to_method (f : Field) (g : GlobalAttr) (a : Attr) (t : Ty)
    (hs : has_legacy_skip f = false) (ha : parse_attr f = Except.ok a)
    (hk : a.skip = false) (ht : get_inner_type f.ty = some t) :
    ∃ m, generate_builder_method f g = Except.ok (MethodFragment.method m) ∧
      m.docs = doc_attrs f := by
  refine ⟨mk_method f a g t, generate_eq_method f g a t hs ha hk ht, ?_⟩
  rcases h3 : a.into || g.into with _ | _ <;> simp [mk_method, h3]

/-- Witness for C8 at a field with two doc-comment lines. -/
theorem doc_comments_carried_to_method_witness :
    ∃ m, generate_builder_method field_documented GlobalAttr.init =
        Except.ok (MethodFragment.method m) ∧
      m.docs = doc_attrs field_documented :=
  doc_comments_carried_to_method field_documented GlobalAttr.init
    Attr.init tyString rfl rfl rfl rfl

/-- C1: for a struct with named fields, none marked skip (either form) and
every declared type of the optional-wrapper shape (directives parsing
cleanly), generation produces a single impl block containing exactly one
method per field, in field declaration order. -/
theorem builder_impl_one_method_per_field (input : DeriveInput) (fields : List Field)
    (g : GlobalAttr)
    (hdata : input.data = Data.struct (StructFields.named fields))
    (hg : parse_global_attr input = Except.ok g)
    (hok : ∀ f ∈ fields, has_legacy_skip f = false ∧
      ∃ a, parse_attr f = Except.ok a ∧ a.skip = false ∧
        ∃ t, get_inner_type f.ty = some t) :
    ∃ frs, derive_builder input =
        Except.ok (DeriveOutput.implBlock
          ⟨input.generics, input.ident, input.generics, frs⟩) ∧
      frs.length = fields.length ∧
      ∀ i f, fields.get? i = some f → ∃ a t,
        parse_attr f = Except.ok a ∧ get_inner_type f.ty = some t ∧
        frs.get? i = some (MethodFragment.method (mk_method f a g t)) := by
  have hgen : ∀ f ∈ fields, ∃ fr, generate_builder_method f g = Except.ok fr := by
    intro f hf
    obtain ⟨hs, a, ha, hk, t, ht⟩ := hok f hf
    exact ⟨_, generate_eq_method f g a t hs ha hk ht⟩
  obtain ⟨frs, hd, hlen, hpt⟩ := derive_builder_eq_impl input fields g hdata hg hgen
  refine ⟨frs, hd, hlen, ?_⟩
  intro i f hif
  obtain ⟨hs, a, ha, hk, t, ht⟩ := hok f (mem_of_get_index hif)
  obtain ⟨fr, hfr, hfr2⟩ := hpt i f hif
  refine ⟨a, t, ha, ht, ?_⟩
  rw [generate_eq_method f g a t hs ha hk ht] at hfr2
  cases hfr2
  exact hfr

/-- Witness for C1 at the two-field struct of the `simple_struct` test. -/
theorem builder_impl_one_method_per_field_witness :
    ∃ frs, derive_builder input_simple =
        Except.ok (DeriveOutput.implBlock
          ⟨input_simple.generics, input_simple.ident, input_simple.generics, frs⟩) ∧
      frs.length = [field_name, field_age].length ∧
      ∀ i f, [field_name, field_age].get? i = some f → ∃ a t,
        parse_attr f = Except.ok a ∧ get_inner_type f.ty = some t ∧
        frs.get? i = some (MethodFragment.method (mk_method f a GlobalAttr.init t)) :=
  builder_impl_one_method_per_field input_simple [field_name, field_age] GlobalAttr.init
    rfl rfl
    (by
      intro f hf
      simp only [List.mem_cons, List.not_mem_nil, or_false] at hf
      rcases hf with rfl | rfl
      · exact ⟨rfl, Attr.init, rfl, rfl, tyString, rfl⟩
      · exact ⟨rfl, Attr.init, rfl, rfl, tyU32, rfl⟩)

/-- C4: a non-skipped field whose declared type is not the Option shape
yields a `compile_error!` fragment at that field's span carrying the
remediation message, while sibling fields of valid shape still get their
methods, in the same single impl block (per-field error isolation). -/
theorem invalid_field_type_error_isolated_per_field (input : DeriveInput)
    (fields : List Field) (g : GlobalAttr)
    (hdata : input.data = Data.struct (StructFields.named fields))
    (hg : parse_global_attr input = Except.ok g)
    (hparse : ∀ f ∈ fields, has_legacy_skip f = true ∨ ∃ a, parse_attr f = Except.ok a) :
    ∃ frs, derive_builder input =
        Except.ok (DeriveOutput.implBlock
          ⟨input.generics, input.ident, input.generics, frs⟩) ∧
      frs.length = fields.length ∧
      (∀ i f a, fields.get? i = some f → has_legacy_skip f = false →
        parse_attr f = Except.ok a → a.skip = false →
        get_inner_type f.ty = Option.none →
        frs.get? i = some (MethodFragment.compileError f.span invalid_type_msg)) ∧
      (∀ i f a t, fields.get? i = some f → has_legacy_skip f = false →
        parse_attr f = Except.ok a → a.skip = false →
        get_inner_type f.ty = some t →
        frs.get? i = some (MethodFragment.method (mk_method f a g t))) := by
  have hgen : ∀ f ∈ fields, ∃ fr, generate_builder_method f g = Except.ok fr := by
    intro f hf
    rcases hparse f hf with hsk | ⟨a, ha⟩
    · exact ⟨_, generate_eq_empty_of_legacy_skip f g hsk⟩
    · rcases h2 : has_legacy_skip f with _ | _
      · rcases h3 : a.skip with _ | _
        · rcases h4 : get_inner_type f.ty with _ | t
          · exact ⟨_, generate_eq_error_of_bad_type f g a h2 ha h3 h4⟩
          · exact ⟨_, generate_eq_method f g a t h2 ha h3 h4⟩
        · exact ⟨_, generate_eq_empty_of_attr_skip f g a h2 ha h3⟩
      · exact ⟨_, generate_eq_empty_of_legacy_skip f g h2⟩
  obtain ⟨frs, hd, hlen, hpt⟩ := derive_builder_eq_impl input fields g hdata hg hgen
  refine ⟨frs, hd, hlen, ?_, ?_⟩
  · intro i f a hif hs ha hk ht
    obtain ⟨fr, hfr, hfr2⟩ := hpt i f hif
    rw [generate_eq_error_of_bad_type f g a hs ha hk ht] at hfr2
    cases hfr2
    exact hfr
  · intro i f a t hif hs ha hk ht
    obtain ⟨fr, hfr, hfr2⟩ := hpt i f hif
    rw [generate_eq_method f g a t hs ha hk ht] at hfr2
    cases hfr2
    exact hfr

/-- Witness for C4 at a struct whose first field `address: String` is not of
Option shape while its sibling `age: Option<u32>` is. -/
theorem invalid_field_type_error_isolated_per_field_witness :
    ∃ frs, derive_builder input_mixed =
        Except.ok (DeriveOutput.implBlock
          ⟨input_mixed.generics, input_mixed.ident, input_mixed.generics, frs⟩) ∧
      frs.length = [field_bad_type, field_age].length ∧
      (∀ i f a, [field_bad_type, field_age].get? i = some f →
        has_legacy_skip f = false → parse_attr f = Except.ok a → a.skip = false →
        get_inner_type f.ty = Option.none →
        frs.get? i = some (MethodFragment.compileError f.span invalid_type_msg)) ∧
      (∀ i f a t, [field_bad_type, field_age].get? i = some f →
        has_legacy_skip f = false → parse_attr f = Except.ok a → a.skip = false →
        get_inner_type f.ty = some t →
        frs.get? i = some (MethodFragment.method (mk_method f a GlobalAttr.init t))) :=
  invalid_field_type_error_isolated_per_field input_mixed [field_bad_type, field_age]
    GlobalAttr.init rfl rfl
    (by
      intro f hf
      simp only [List.mem_cons, List.not_mem_nil, or_false] at hf
      rcases hf with rfl | rfl
      · exact Or.inr ⟨Attr.init, rfl⟩
      · exact Or.inr ⟨Attr.init, rfl⟩)

/-- C6: the emitted impl block is scoped to the struct's name together with
its full generic-parameter list, the list being printed both after `impl` and
after the name, so generic (type- or lifetime-parameterized) structs are
supported. -/
theorem impl_block_scoped_to_name_and_generics (input : DeriveInput) (fields : List Field)
    (g : GlobalAttr)
    (hdata : input.data = Data.struct (StructFields.named fields))
    (hg : parse_global_attr input = Except.ok g)
    (hgen : ∀ f ∈ fields, ∃ fr, generate_builder_method f g = Except.ok fr) :
    ∃ b, derive_builder input = Except.ok (DeriveOutput.implBlock b) ∧
      b.name = input.ident ∧ b.impl_generics = input.generics ∧
      b.ty_generics = input.generics := by
  obtain ⟨frs, hd, -, -⟩ := derive_builder_eq_impl input fields g hdata hg hgen
  exact ⟨_, hd, rfl, rfl, rfl⟩

/-- Witness for C6 at a struct with a one-entry generic-parameter list. -/
theorem impl_block_scoped_to_name_and_generics_witness :
    ∃ b, derive_builder input_generic = Except.ok (DeriveOutput.implBlock b) ∧
      b.name = input_generic.ident ∧ b.impl_generics = input_generic.generics ∧
      b.ty_generics = input_generic.generics :=
  impl_block_scoped_to_name_and_generics input_generic [field_name, field_age]
    GlobalAttr.init rfl rfl
    (by
      intro f hf
      simp only [List.mem_cons, List.not_mem_nil, or_false] at hf
      rcases hf with rfl | rfl
      · exact ⟨_, generate_eq_method field_name GlobalAttr.init Attr.init tyString rfl rfl rfl rfl⟩
      · exact ⟨_, generate_eq_method field_age GlobalAttr.init Attr.init tyU32 rfl rfl rfl rfl⟩)

/-- C7: enums and unions are rejected with a diagnostic naming the shape at
the keyword token's span and no impl block is emitted; a tuple struct is
rejected with a diagnostic at the unnamed-field list's span; a unit struct
silently produces empty output. -/
theorem unsupported_shapes_rejected (input : DeriveInput) (g : GlobalAttr)
    (hg : parse_global_attr input = Except.ok g) :
    (∀ sp, input.data = Data.enum sp →
      derive_builder input = Except.ok
        (DeriveOutput.compileError sp "Builder derive does not work on enums")) ∧
    (∀ sp, input.data = Data.union sp →
      derive_builder input = Except.ok
        (DeriveOutput.compileError sp "Builder derive does not work on unions")) ∧
    (∀ sp, input.data = Data.struct (StructFields.unnamed sp) →
      derive_builder input = Except.ok
        (DeriveOutput.compileError sp
          "Builder derive only works on structs with named fields")) ∧
    (input.data = Data.struct StructFields.unit →
      derive_builder input = Except.ok DeriveOutput.empty) := by
  refine ⟨?_, ?_, ?_, ?_⟩
  · intro sp hd
    unfold derive_builder
    rw [hg, except_bind_ok, hd]
    rfl
  · intro sp hd
    unfold derive_builder
    rw [hg, except_bind_ok, hd]
    rfl
  · intro sp hd
    unfold derive_builder
    rw [hg, except_bind_ok, hd]
    rfl
  · intro hd
    unfold derive_builder
    rw [hg, except_bind_ok, hd]
    rfl

/-- Witness for C7 at a concrete enum, union, tuple struct and unit struct. -/
theorem unsupported_shapes_rejected_witness :
    derive_builder input_enum = Except.ok
      (DeriveOutput.compileError 20 "Builder derive does not work on enums") ∧
    derive_builder input_union = Except.ok
      (DeriveOutput.compileError 21 "Builder derive does not work on unions") ∧
    derive_builder input_tuple = Except.ok
      (DeriveOutput.compileError 22
        "Builder derive only works on structs with named fields") ∧
    derive_builder input_unit = Except.ok DeriveOutput.empty :=
  ⟨(unsupported_shapes_rejected input_enum GlobalAttr.init rfl).1 20 rfl,
   (unsupported_shapes_rejected input_union GlobalAttr.init rfl).2.1 21 rfl,
   (unsupported_shapes_rejected input_tuple GlobalAttr.init rfl).2.2.1 22 rfl,
   (unsupported_shapes_rejected input_unit GlobalAttr.init rfl).2.2.2 rfl⟩

/-- Bind of a failed `Except` computation reduces. -/
theorem except_bind_error {α β : Type} (e : String) (k : α → Except String β) :
    (Except.error e : Except String α) >>= k = Except.error e := rfl

/-- A fold step on a benign meta item (anything except a rename whose value is
missing or not a string literal) succeeds. -/
theorem parse_attr_step_ok_of_benign (r : Attr) (it : MetaItem)
    (h : it.path = "rename" → ∃ s, it.value = some (Lit.str s)) :
    ∃ r2, parse_attr_step r it = Except.ok r2 := by
  unfold parse_attr_step
  by_cases h1 : it.path = "skip"
  · exact ⟨_, by rw [if_pos h1]⟩
  · rw [if_neg h1]
    by_cases h2 : it.path = "into"
    · exact ⟨_, by rw [if_pos h2]⟩
    · rw [if_neg h2]
      by_cases h3 : it.path = "rename"
      · obtain ⟨s, hs⟩ := h h3
        rw [if_pos h3, hs]
        exact ⟨_, rfl⟩
      · rw [if_neg h3]
        exact ⟨_, rfl⟩

/-- Folding the directive closure over a benign prefix reaches some
intermediate state, from which the remaining items are processed. -/
theorem foldlM_parse_attr_split (ipre : List MetaItem) :
    ∀ (rest : List MetaItem) (r : Attr),
    (∀ it ∈ ipre, it.path = "rename" → ∃ s, it.value = some (Lit.str s)) →
    ∃ r2, (ipre ++ rest).foldlM parse_attr_step r = rest.foldlM parse_attr_step r2 := by
  induction ipre with
  | nil =>
    intro rest r _
    exact ⟨r, rfl⟩
  | cons it pre ih =>
    intro rest r h
    obtain ⟨r2, hr2⟩ := parse_attr_step_ok_of_benign r it (h it (List.mem_cons_self _ _))
    obtain ⟨r3, hr3⟩ := ih rest r2 (fun x hx => h x (List.mem_cons_of_mem _ hx))
    refine ⟨r3, ?_⟩
    rw [List.cons_append, List.foldlM_cons, hr2, except_bind_ok]
    exact hr3

/-- Prepending elements the predicate rejects does not change `find?`. -/
theorem find?_append_of_no_match {α : Type} (p : α → Bool) (pre l : List α)
    (h : ∀ x ∈ pre, p x = false) : (pre ++ l).find? p = l.find? p := by
  induction pre with
  | nil => rfl
  | cons b pre ih =>
    rw [List.cons_append, List.find?_cons_of_neg _ (by simp [h b (List.mem_cons_self _ _)])]
    exact ih (fun x hx => h x (List.mem_cons_of_mem _ hx))

/-- C9 (amended): a rename sub-option without a string-literal value is a
hard failure that aborts the whole generation with only a message (the Rust
code reaches a panic through `expect`, producing no span-carrying structured
error), while unknown sub-option keys are silently ignored and leave the
produced directive set unchanged. -/
theorem malformed_rename_panics_and_unknown_keys_ignored
    (f : Field) (g : GlobalAttr) (items ipre ipost : List MetaItem)
    (u : MetaItem) (r0 : Attr) (l : Lit) :
    (has_legacy_skip f = false →
      f.attrs.find? (fun a => a.path == "build_it") =
        some ⟨"build_it", AttrArgs.list items⟩ →
      (∀ it ∈ ipre, it.path = "rename" → ∃ s, it.value = some (Lit.str s)) →
      items = ipre ++ ⟨"rename", Option.none⟩ :: ipost →
      generate_builder_method f g = Except.error "Expected a value") ∧
    ((∀ s, l ≠ Lit.str s) →
      has_legacy_skip f = false →
      f.attrs.find? (fun a => a.path == "build_it") =
        some ⟨"build_it", AttrArgs.list items⟩ →
      (∀ it ∈ ipre, it.path = "rename" → ∃ s, it.value = some (Lit.str s)) →
      items = ipre ++ ⟨"rename", some l⟩ :: ipost →
      generate_builder_method f g = Except.error "Failed to parse build_it attribute") ∧
    (u.path ≠ "skip" → u.path ≠ "into" → u.path ≠ "rename" →
      (ipre ++ u :: ipost).foldlM parse_attr_step r0 =
        (ipre ++ ipost).foldlM parse_attr_step r0) := by
  refine ⟨?_, ?_, ?_⟩
  · intro hs hfind hben hitems
    have hpa : parse_attr f = Except.error "Expected a value" := by
      unfold parse_attr
      rw [hfind]
      dsimp only
      rw [hitems]
      obtain ⟨r2, hr2⟩ := foldlM_parse_attr_split ipre
        (⟨"rename", Option.none⟩ :: ipost) Attr.init hben
      rw [hr2, List.foldlM_cons]
      have hstep : parse_attr_step r2 ⟨"rename", Option.none⟩ =
          Except.error "Expected a value" := rfl
      rw [hstep, except_bind_error]
    exact generate_eq_error_of_parse_error f g _ hs hpa
  · intro hl hs hfind hben hitems
    have hpa : parse_attr f = Except.error "Failed to parse build_it attribute" := by
      unfold parse_attr
      rw [hfind]
      dsimp only
      rw [hitems]
      obtain ⟨r2, hr2⟩ := foldlM_parse_attr_split ipre
        (⟨"rename", some l⟩ :: ipost) Attr.init hben
      rw [hr2, List.foldlM_cons]
      have hstep : parse_attr_step r2 ⟨"rename", some l⟩ =
          Except.error "Failed to parse build_it attribute" := by
        rcases l with s | n | b
        · exact absurd rfl (hl s)
        · rfl
        · rfl
      rw [hstep, except_bind_error]
    exact generate_eq_error_of_parse_error f g _ hs hpa
  · intro h1 h2 h3
    have hstep : ∀ r : Attr, parse_attr_step r u = Except.ok r := by
      intro r
      unfold parse_attr_step
      rw [if_neg h1, if_neg h2, if_neg h3]
    induction ipre generalizing r0 with
    | nil =>
      rw [List.nil_append, List.nil_append, List.foldlM_cons, hstep, except_bind_ok]
    | cons it pre ih =>
      rw [List.cons_append, List.cons_append, List.foldlM_cons, List.foldlM_cons]
      cases hit : parse_attr_step r0 it with
      | error e => rfl
      | ok r1 =>
        rw [except_bind_ok, except_bind_ok]
        exact ih r1

/-- Witness for C9 (amended) at the fields `renamed: Option<String>` with
`#[build_it(rename)]` and with `#[build_it(rename = 3)]`, and at an unknown
sub-option key. -/
theorem malformed_rename_panics_and_unknown_keys_ignored_witness :
    generate_builder_method field_bad_rename GlobalAttr.init =
      Except.error "Expected a value" ∧
    generate_builder_method field_bad_rename_kind GlobalAttr.init =
      Except.error "Failed to parse build_it attribute" ∧
    ([] ++ (⟨"whatever", Option.none⟩ : MetaItem) :: [⟨"into", Option.none⟩]).foldlM
        parse_attr_step Attr.init =
      ([] ++ [(⟨"into", Option.none⟩ : MetaItem)]).foldlM parse_attr_step Attr.init :=
  ⟨(malformed_rename_panics_and_unknown_keys_ignored field_bad_rename GlobalAttr.init
      [⟨"rename", Option.none⟩] [] [] ⟨"whatever", Option.none⟩ Attr.init (Lit.int 0)).1
      rfl rfl (fun it hit => absurd hit (List.not_mem_nil it)) rfl,
   (malformed_rename_panics_and_unknown_keys_ignored field_bad_rename_kind GlobalAttr.init
      [⟨"rename", some (Lit.int 3)⟩] [] [] ⟨"whatever", Option.none⟩ Attr.init
      (Lit.int 3)).2.1
      (fun s h => Lit.noConfusion h) rfl rfl
      (fun it hit => absurd hit (List.not_mem_nil it)) rfl,
   (malformed_rename_panics_and_unknown_keys_ignored field_bad_rename GlobalAttr.init
      [] [] [⟨"into", Option.none⟩] ⟨"whatever", Option.none⟩ Attr.init (Lit.int 0)).2.2
      (by decide) (by decide) (by decide)⟩

/-- C9 counterexample: at the concrete field `renamed: Option<String>`
carrying `#[build_it(rename)]` (no value), directive parsing aborts with a
bare panic message — an `Except.error`, not an emitted structured error
fragment carrying a source location (which this model renders as
`Except.ok (MethodFragment.compileError span msg)`), refuting the
structured-error part of the claim. -/
theorem malformed_rename_not_a_structured_error :
    parse_attr field_bad_rename = Except.error "Expected a value" ∧
    generate_builder_method field_bad_rename GlobalAttr.init =
      Except.error "Expected a value" :=
  ⟨rfl, rfl⟩

/-- C10: only the first `build_it` attribute on a field or on the struct is
parsed: with a second `build_it` attribute attached, directive parsing and
method generation coincide with what they produce when that second attribute
is removed, whatever sub-options it carries. -/
theorem first_build_it_attribute_wins
    (nm : String) (ty : Ty) (sp : Span) (gens : List String) (idn : String)
    (pre mid post : List Attribute) (args1 args2 : AttrArgs) (d : Data)
    (hpre : ∀ x ∈ pre, (x.path == "build_it") = false) :
    (parse_attr ⟨nm, ty,
        pre ++ (⟨"build_it", args1⟩ :: (mid ++ (⟨"build_it", args2⟩ :: post))), sp⟩ =
      parse_attr ⟨nm, ty, pre ++ (⟨"build_it", args1⟩ :: (mid ++ post)), sp⟩) ∧
    (∀ g, generate_builder_method ⟨nm, ty,
        pre ++ (⟨"build_it", args1⟩ :: (mid ++ (⟨"build_it", args2⟩ :: post))), sp⟩ g =
      generate_builder_method
        ⟨nm, ty, pre ++ (⟨"build_it", args1⟩ :: (mid ++ post)), sp⟩ g) ∧
    (parse_global_attr ⟨idn, gens,
        pre ++ (⟨"build_it", args1⟩ :: (mid ++ (⟨"build_it", args2⟩ :: post))), d⟩ =
      parse_global_attr ⟨idn, gens, pre ++ (⟨"build_it", args1⟩ :: (mid ++ post)), d⟩) := by
  have hfind : ∀ post2 : List Attribute,
      (pre ++ (⟨"build_it", args1⟩ :: (mid ++ post2))).find?
          (fun a => a.path == "build_it") =
        some ⟨"build_it", args1⟩ := by
    intro post2
    rw [find?_append_of_no_match (fun a => a.path == "build_it") pre
      (⟨"build_it", args1⟩ :: (mid ++ post2)) hpre]
    exact List.find?_cons_of_pos _ rfl
  have hany : ∀ q : Attribute → Bool, q ⟨"build_it", args2⟩ = false →
      (pre ++ (⟨"build_it", args1⟩ :: (mid ++ (⟨"build_it", args2⟩ :: post)))).any q =
      (pre ++ (⟨"build_it", args1⟩ :: (mid ++ post))).any q := by
    intro q hq
    simp [List.any_append, List.any_cons, hq]
  have hfilter : ∀ q : Attribute → Bool, q ⟨"build_it", args2⟩ = false →
      (pre ++ (⟨"build_it", args1⟩ :: (mid ++ (⟨"build_it", args2⟩ :: post)))).filter q =
      (pre ++ (⟨"build_it", args1⟩ :: (mid ++ post))).filter q := by
    intro q hq
    simp [List.filter_append, List.filter_cons, hq]
  have hparse : parse_attr ⟨nm, ty,
      pre ++ (⟨"build_it", args1⟩ :: (mid ++ (⟨"build_it", args2⟩ :: post))), sp⟩ =
      parse_attr ⟨nm, ty, pre ++ (⟨"build_it", args1⟩ :: (mid ++ post)), sp⟩ := by
    unfold parse_attr
    dsimp only
    rw [hfind (⟨"build_it", args2⟩ :: post), hfind post]
  refine ⟨hparse, ?_, ?_⟩
  · intro g
    unfold generate_builder_method
    dsimp only
    rw [hany (fun a => a.path == "skip") rfl, hparse]
    simp only [hfilter (fun a => a.path == "doc") rfl]
  · unfold parse_global_attr
    dsimp only
    rw [hfind (⟨"build_it", args2⟩ :: post), hfind post]

/-- Witness for C10 at a field carrying `#[build_it(into)]` followed by
`#[build_it(skip)]`, and a struct carrying the same attribute pair: the
second attribute is ignored in both positions. -/
theorem first_build_it_attribute_wins_witness :
    (parse_attr ⟨"name", optionString,
        [] ++ (⟨"build_it", AttrArgs.list [⟨"into", Option.none⟩]⟩ :: ([] ++ (⟨"build_it", AttrArgs.list [⟨"skip", Option.none⟩]⟩ :: []))), 11⟩ =
      parse_attr ⟨"name", optionString, [] ++ (⟨"build_it", AttrArgs.list [⟨"into", Option.none⟩]⟩ :: ([] ++ [])), 11⟩) ∧
    (∀ g, generate_builder_method ⟨"name", optionString,
        [] ++ (⟨"build_it", AttrArgs.list [⟨"into", Option.none⟩]⟩ :: ([] ++ (⟨"build_it", AttrArgs.list [⟨"skip", Option.none⟩]⟩ :: []))), 11⟩ g =
      generate_builder_method
        ⟨"name", optionString, [] ++ (⟨"build_it", AttrArgs.list [⟨"into", Option.none⟩]⟩ :: ([] ++ [])), 11⟩ g) ∧
    (parse_global_attr ⟨"S", [],
        [] ++ (⟨"build_it", AttrArgs.list [⟨"into", Option.none⟩]⟩ :: ([] ++ (⟨"build_it", AttrArgs.list [⟨"skip", Option.none⟩]⟩ :: []))), Data.struct StructFields.unit⟩ =
      parse_global_attr ⟨"S", [], [] ++ (⟨"build_it", AttrArgs.list [⟨"into", Option.none⟩]⟩ :: ([] ++ [])), Data.struct StructFields.unit⟩) :=
  first_build_it_attribute_wins "name" optionString 11 [] "S"
    [] [] [] (AttrArgs.list [⟨"into", Option.none⟩]) (AttrArgs.list [⟨"skip", Option.none⟩])
    (Data.struct StructFields.unit)
    (fun x hx => absurd hx (List.not_mem_nil x))

end BuildIt
